import Mathlib

/-!
Verification of the storage/identity subsystem of the `contractor` URL
shortener: a shallow embedding of the memory, file and relational storage
backends, the dedup/create orchestrator and the delete-queue producer,
with theorems settling the specification claims about them.
-/

set_option autoImplicit false

namespace Contractor

/-- Association list standing in for a Go `map[string]string`; lookup finds
the first binding, insertion replaces an existing binding in place. -/
abbrev AList := List (String × String)

/-- Lookup of a key in an association list (Go map read). -/
def AList.find? (k : String) : AList → Option String
  | [] => none
  | (k', v) :: rest => if k' = k then some v else AList.find? k rest

/-- Insertion into an association list (Go map write `m[k] = v`):
replaces the binding of `k` if present, appends otherwise. -/
def AList.insert (k v : String) : AList → AList
  | [] => [(k, v)]
  | (k', v') :: rest =>
      if k' = k then (k, v) :: rest else (k', v') :: AList.insert k v rest

/-- State of `memory.MemoryStore`: forward map `URLs` (short id to original
URL), reverse map `reverseURLs` (original URL to short id), and the
per-owner index `userURLs`. The mutex is dropped: the embedding is the
serialized behaviour the lock enforces. -/
structure MemoryStore where
  URLs : AList
  reverseURLs : AList
  userURLs : List (String × AList)
deriving DecidableEq, Repr

/-- Source `memory.NewMemoryStore`: all maps empty. -/
def NewMemoryStore : MemoryStore := ⟨[], [], []⟩

/-- Owner-index lookup `s.userURLs[userID]` (Go nested map read). -/
def ownerFind? (uid : String) : List (String × AList) → Option AList
  | [] => none
  | (k, m) :: rest => if k = uid then some m else ownerFind? uid rest

/-- Owner-index update: `if absent, create empty map; then m[id] = url`,
as `MemoryStore.SaveID` does for `s.userURLs[userID][id] = originalURL`. -/
def ownerUpdate (uid id url : String) : List (String × AList) → List (String × AList)
  | [] => [(uid, AList.insert id url [])]
  | (k, m) :: rest =>
      if k = uid then (k, AList.insert id url m) :: rest
      else (k, m) :: ownerUpdate uid id url rest

/-- Owner-index initialisation used by `SaveBatch`: create an empty map for
`uid` when absent, change nothing otherwise. -/
def ensureOwner (uid : String) : List (String × AList) → List (String × AList)
  | [] => [(uid, [])]
  | (k, m) :: rest =>
      if k = uid then (k, m) :: rest else (k, m) :: ensureOwner uid rest

/-- Source `MemoryStore.SaveID`: error if the id is already in the forward map,
otherwise update forward map, reverse map and owner index together.
The returned `Option String` is the Go `error` (`none` = nil). -/
def MemoryStore.SaveID (s : MemoryStore) (userID id originalURL : String) :
    MemoryStore × Option String :=
  if (AList.find? id s.URLs).isSome then
    (s, some ("ID " ++ id ++ " already exists"))
  else
    (⟨AList.insert id originalURL s.URLs,
      AList.insert originalURL id s.reverseURLs,
      ownerUpdate userID id originalURL s.userURLs⟩, none)

/-- Source `MemoryStore.Get`: forward lookup; returns the Go comma-ok pair
`(originalURL, ok)` with the zero value `""` on a miss. No tombstone
check appears in the source. -/
def MemoryStore.Get (s : MemoryStore) (id : String) : String × Bool :=
  ((AList.find? id s.URLs).getD "", (AList.find? id s.URLs).isSome)

/-- Source `MemoryStore.GetIDByURL`: reverse lookup, comma-ok style. -/
def MemoryStore.GetIDByURL (s : MemoryStore) (originalURL : String) : String × Bool :=
  ((AList.find? originalURL s.reverseURLs).getD "",
   (AList.find? originalURL s.reverseURLs).isSome)

/-- Source `MemoryStore.GetUserURLs`: returns the owner's map with `ok = true`
when the owner is present, `(nil, false)` otherwise. -/
def MemoryStore.GetUserURLs (s : MemoryStore) (userID : String) : AList × Bool :=
  ((ownerFind? userID s.userURLs).getD [],
   (ownerFind? userID s.userURLs).isSome)

/-- Source `MemoryStore.BatchDelete`: the source body is exactly `return nil` —
no map is read or written. -/
def MemoryStore.BatchDelete (s : MemoryStore) (_userID : String)
    (_urlIDs : List String) : MemoryStore × Option String :=
  (s, none)

/-- Loop body of `MemoryStore.SaveBatch` over the `pairs` map (modelled as
a list, since Go map iteration order is unspecified): abort with the first
error, keeping the mutations already made. -/
def saveBatchGo (uid : String) : MemoryStore → List (String × String) →
    MemoryStore × Option String
  | s, [] => (s, none)
  | s, (id, url) :: rest =>
      if (AList.find? id s.URLs).isSome then
        (s, some ("ID " ++ id ++ " already exists"))
      else if (AList.find? id ((ownerFind? uid s.userURLs).getD [])).isSome then
        (s, some ("ID " ++ id ++ " already exists for user " ++ uid))
      else
        saveBatchGo uid
          ⟨AList.insert id url s.URLs,
           AList.insert url id s.reverseURLs,
           ownerUpdate uid id url s.userURLs⟩ rest

/-- Source `MemoryStore.SaveBatch`: ensure the owner's map exists, then save each
pair, updating forward, reverse and owner maps together; first error
aborts, prior entries remain. -/
def MemoryStore.SaveBatch (s : MemoryStore) (userID : String)
    (pairs : List (String × String)) : MemoryStore × Option String :=
  saveBatchGo userID ⟨s.URLs, s.reverseURLs, ensureOwner userID s.userURLs⟩ pairs

/-! ## Relational backend (`postgres.PostgresStore`, table `urls`) -/

/-- One row of the `urls` table:
`(short_id UNIQUE, original_url UNIQUE, user_id, is_deleted DEFAULT FALSE)`. -/
structure PgRow where
  shortID : String
  originalURL : String
  userID : String
  isDeleted : Bool
deriving DecidableEq, Repr

/-- The `urls` table as a row list in insertion order. -/
abbrev PgTable := List PgRow

/-- Source `SELECT ... WHERE short_id = id LIMIT`-style scan: first row whose
`short_id` matches. -/
def pgLookup (id : String) : PgTable → Option PgRow
  | [] => none
  | r :: rest => if r.shortID = id then some r else pgLookup id rest

/-- First row whose `original_url` matches. -/
def pgLookupByURL (url : String) : PgTable → Option PgRow
  | [] => none
  | r :: rest => if r.originalURL = url then some r else pgLookupByURL url rest

/-- Source `PostgresStore.SaveID`:
`INSERT INTO urls (short_id, original_url, user_id) VALUES (...) ON CONFLICT DO NOTHING`.
A conflict on either unique column inserts nothing, and `Exec` still
reports success, so the Go function returns nil either way. -/
def pgSaveID (t : PgTable) (userID id originalURL : String) :
    PgTable × Option String :=
  if (pgLookup id t).isSome ∨ (pgLookupByURL originalURL t).isSome then
    (t, none)
  else
    (t ++ [⟨id, originalURL, userID, false⟩], none)

/-- Source `PostgresStore.Get`:
`SELECT original_url FROM urls WHERE short_id = $1` — no `is_deleted`
filter appears in the query. -/
def pgGet (t : PgTable) (id : String) : String × Bool :=
  (((pgLookup id t).map PgRow.originalURL).getD "", (pgLookup id t).isSome)

/-- Source `PostgresStore.GetIDByURL`:
`SELECT short_id FROM urls WHERE original_url = $1`. -/
def pgGetIDByURL (t : PgTable) (originalURL : String) : String × Bool :=
  (((pgLookupByURL originalURL t).map PgRow.shortID).getD "",
   (pgLookupByURL originalURL t).isSome)

/-- Row effect of the soft-delete `UPDATE`: set `is_deleted = TRUE` on the
rows whose `user_id` and `short_id` match, leave every other row alone. -/
def tombstoneRow (userID : String) (urlIDs : List String) (r : PgRow) : PgRow :=
  if r.userID = userID ∧ r.shortID ∈ urlIDs then { r with isDeleted := true }
  else r

/-- Source `PostgresStore.BatchDelete`:
`UPDATE urls SET is_deleted = TRUE WHERE user_id = $1 AND short_id IN (...)`,
with an early nil return on an empty id list. -/
def pgBatchDelete (t : PgTable) (userID : String) (urlIDs : List String) :
    PgTable × Option String :=
  if urlIDs = [] then (t, none)
  else (t.map (tombstoneRow userID urlIDs), none)

/-- Row scan of `SELECT short_id, original_url FROM urls WHERE user_id = $1`
— again no `is_deleted` filter in the query. -/
def pgUserRows (uid : String) : PgTable → List (String × String)
  | [] => []
  | r :: rest =>
      if r.userID = uid then (r.shortID, r.originalURL) :: pgUserRows uid rest
      else pgUserRows uid rest

/-- Source `PostgresStore.GetUserURLs`: all rows of the owner, `ok = true` on a
successful query. -/
def pgGetUserURLs (t : PgTable) (userID : String) : List (String × String) × Bool :=
  (pgUserRows userID t, true)

/-! ## File backend (`file.FileStore`) -/

/-- One newline-delimited JSON record of the log file, keys `user_id`,
`short_url`, `original_url` (also reused as a SaveID call description). -/
structure FileEntry where
  userID : String
  shortID : String
  originalURL : String
deriving DecidableEq, Repr

/-- Source `file.FileStore`: the wrapped memory store plus the append-only log
file content. -/
structure FileStore where
  memoryStore : MemoryStore
  file : List FileEntry
deriving DecidableEq, Repr

/-- Source `FileStore.SaveID`: save in the memory store first; on success append
one record to the log file (the model's append always succeeds). -/
def FileStore.SaveID (fs : FileStore) (userID id originalURL : String) :
    FileStore × Option String :=
  match fs.memoryStore.SaveID userID id originalURL with
  | (m, some e) =>
      ({ fs with memoryStore := m },
       some ("failed to save ID in memory store: " ++ e))
  | (m, none) => (⟨m, fs.file ++ [⟨userID, id, originalURL⟩]⟩, none)

/-- Source `FileStore.Get` delegates to the memory store. -/
def FileStore.Get (fs : FileStore) (id : String) : String × Bool :=
  fs.memoryStore.Get id

/-- Replay loop of `FileStore.loadFromFile`: apply `MemoryStore.SaveID` to
each decoded record in file order; the first error aborts the replay,
keeping the partially rebuilt state. -/
def loadEntries : MemoryStore → List FileEntry → MemoryStore × Option String
  | m, [] => (m, none)
  | m, e :: rest =>
      match m.SaveID e.userID e.shortID e.originalURL with
      | (m', none) => loadEntries m' rest
      | (m', some err) =>
          (m', some ("failed to save ID in memory store: " ++ err))

/-- A process run on the file backend: apply a sequence of `SaveID`
requests (failed saves leave state and file as they were). -/
def applyOps : FileStore → List FileEntry → FileStore
  | fs, [] => fs
  | fs, op :: rest =>
      applyOps (fs.SaveID op.userID op.shortID op.originalURL).1 rest

/-- Fresh `FileStore` over an absent file. -/
def NewFileStoreEmpty : FileStore := ⟨NewMemoryStore, []⟩

/-! ## Dedup/create orchestrator (`handlers.URLShortener`) -/

/-- The slice of the `storage.Storage` interface the orchestrator uses,
over an abstract backend state `σ`. -/
structure StoreOps (σ : Type) where
  GetIDByURL : σ → String → String × Bool
  SaveID : σ → String → String → String → σ × Option String

/-- The memory backend seen through the `storage.Storage` interface. -/
def memOps : StoreOps MemoryStore where
  GetIDByURL s url := s.GetIDByURL url
  SaveID s uid id url := s.SaveID uid id url

/-- The relational backend seen through the `storage.Storage` interface. -/
def pgOps : StoreOps PgTable where
  GetIDByURL t url := pgGetIDByURL t url
  SaveID t uid id url := pgSaveID t uid id url

/-- The `for range maxRetries` loop of `getOrCreateShortURL`: `gens i` is
the outcome of the `i`-th `generateID` call (`none` = generator error,
which logs and continues). A save attempt whose error is nil ends with
that id; any save error just goes round the loop again. The running `id`
variable starts as `""` and is only set on success, exactly as in Go. -/
def createLoopGo {σ : Type} (ops : StoreOps σ) (userID originalURL : String)
    (gens : Nat → Option String) : σ → Nat → Nat → σ × String
  | s, _, 0 => (s, "")
  | s, i, fuel + 1 =>
      match gens i with
      | none => createLoopGo ops userID originalURL gens s (i + 1) fuel
      | some gid =>
          if (ops.SaveID s userID gid originalURL).2 = none then
            ((ops.SaveID s userID gid originalURL).1, gid)
          else
            createLoopGo ops userID originalURL gens
              (ops.SaveID s userID gid originalURL).1 (i + 1) fuel

/-- Source `URLShortener.getOrCreateShortURL`: reverse-lookup first; if found,
return the existing short URL with the already-existed flag; otherwise run
the 10-attempt loop; an empty id afterwards is the exhaustion error
(result `none`). -/
def getOrCreateShortURL {σ : Type} (ops : StoreOps σ) (baseURL : String)
    (s : σ) (userID originalURL : String) (gens : Nat → Option String) :
    σ × Option String × Bool :=
  if (ops.GetIDByURL s originalURL).2 then
    (s, some (baseURL ++ "/" ++ (ops.GetIDByURL s originalURL).1), true)
  else
    if (createLoopGo ops userID originalURL gens s 0 10).2 = "" then
      ((createLoopGo ops userID originalURL gens s 0 10).1, none, false)
    else
      ((createLoopGo ops userID originalURL gens s 0 10).1,
       some (baseURL ++ "/" ++ (createLoopGo ops userID originalURL gens s 0 10).2),
       false)

/-! ## Delete-queue producer (`handlers.DeleteUserURLsHandler`) -/

/-- Source `storage.DeleteRequest`. -/
structure DeleteRequest where
  userID : String
  urlIDs : List String
deriving DecidableEq, Repr

/-- The buffered `chan storage.DeleteRequest` as seen by the producer: a
fixed capacity and the queued requests. -/
structure DeleteChan where
  cap : Nat
  buf : List DeleteRequest
deriving DecidableEq, Repr

/-- HTTP outcome of the delete handler. -/
inductive DeleteOutcome where
  | badRequest
  | unauthorized
  | accepted
  | serverBusy
deriving DecidableEq, Repr

/-- Source `URLShortener.DeleteUserURLsHandler`: decode the id list (`none` =
malformed JSON), reject an empty list, require a non-empty user id, then
`select { case ch <- req: accepted; default: 503 }` — the send succeeds
exactly when the buffer has free space, otherwise the request is rejected
at once with Service Unavailable. -/
def DeleteUserURLsHandler (ch : DeleteChan) (userID : Option String)
    (body : Option (List String)) : DeleteChan × DeleteOutcome :=
  match body with
  | none => (ch, .badRequest)
  | some urlIDs =>
      if urlIDs = [] then (ch, .badRequest)
      else
        match userID with
        | none => (ch, .unauthorized)
        | some uid =>
            if uid = "" then (ch, .unauthorized)
            else if ch.buf.length < ch.cap then
              ({ ch with buf := ch.buf ++ [⟨uid, urlIDs⟩] }, .accepted)
            else (ch, .serverBusy)

/-! ## Helper lemmas -/

theorem AList.find?_insert_self (k v : String) (l : AList) :
    AList.find? k (AList.insert k v l) = some v := by
  induction l with
  | nil => simp [AList.insert, AList.find?]
  | cons hd tl ih =>
      obtain ⟨k', v'⟩ := hd
      by_cases h : k' = k
      · simp [AList.insert, h, AList.find?]
      · simp [AList.insert, h, AList.find?, ih]

theorem AList.find?_insert_ne (k k' v : String) (l : AList) (h : k' ≠ k) :
    AList.find? k' (AList.insert k v l) = AList.find? k' l := by
  have hks : ¬ k = k' := fun hh => h hh.symm
  induction l with
  | nil => simp [AList.insert, AList.find?, hks]
  | cons hd tl ih =>
      obtain ⟨a, b⟩ := hd
      by_cases ha : a = k
      · subst ha
        simp [AList.insert, AList.find?, hks]
      · simp [AList.insert, ha, AList.find?, ih]

theorem pgLookup_append_of_none (id : String) (t l : PgTable)
    (h : pgLookup id t = none) : pgLookup id (t ++ l) = pgLookup id l := by
  induction t with
  | nil => simp
  | cons r rest ih =>
      by_cases hr : r.shortID = id
      · simp [pgLookup, hr] at h
      · simp [pgLookup, hr] at h ⊢
        exact ih h

theorem pgLookupByURL_append_of_none (url : String) (t l : PgTable)
    (h : pgLookupByURL url t = none) :
    pgLookupByURL url (t ++ l) = pgLookupByURL url l := by
  induction t with
  | nil => simp
  | cons r rest ih =>
      by_cases hr : r.originalURL = url
      · simp [pgLookupByURL, hr] at h
      · simp [pgLookupByURL, hr] at h ⊢
        exact ih h

/-! ## Claim C10 -/

/-- Claim C10: for every store state, owner and id list, the memory
backend's `BatchDelete` returns a nil error and leaves the store —
forward map, reverse map and owner index — exactly unchanged: deletion
is a no-op in the memory (and hence file) backend. -/
theorem c10_batchDelete_noop :
    ∀ (s : MemoryStore) (uid : String) (ids : List String),
      s.BatchDelete uid ids = (s, none) :=
  fun _ _ _ => rfl

/-- Helper: a successful memory `SaveID` places `url` under `id` in the
forward map, so the following `Get` hits. -/
theorem memorySaveGet (s : MemoryStore) (uid id url : String)
    (h : (s.SaveID uid id url).2 = none) :
    (s.SaveID uid id url).1.Get id = (url, true) := by
  unfold MemoryStore.SaveID at h ⊢
  by_cases hf : (AList.find? id s.URLs).isSome
  · simp [hf] at h
  · simp [hf, MemoryStore.Get, AList.find?_insert_self]

/-! ## Claim C9 -/

/-- Claim C9: whenever `SaveID(owner, id, url)` succeeds (nil error), an
immediately following `Get(id)` on the resulting state returns
`(url, true)` — proved for the memory backend and the file backend. -/
theorem c9_save_get_roundtrip :
    (∀ (s : MemoryStore) (uid id url : String),
        (s.SaveID uid id url).2 = none →
        (s.SaveID uid id url).1.Get id = (url, true)) ∧
    (∀ (fs : FileStore) (uid id url : String),
        (fs.SaveID uid id url).2 = none →
        (fs.SaveID uid id url).1.Get id = (url, true)) := by
  constructor
  · exact memorySaveGet
  · intro fs uid id url h
    unfold FileStore.SaveID at h ⊢
    cases hm : fs.memoryStore.SaveID uid id url with
    | mk m e =>
        cases e with
        | some err => rw [hm] at h; simp at h
        | none =>
            have h2 : (fs.memoryStore.SaveID uid id url).2 = none := by
              rw [hm]
            have hget := memorySaveGet fs.memoryStore uid id url h2
            rw [hm] at hget
            exact hget

/-- Witness for C9 at a concrete input: saving `("u","a","x")` into the
empty memory store and the empty file store, then reading back `"a"`. -/
theorem c9_save_get_roundtrip_witness :
    (NewMemoryStore.SaveID "u" "a" "x").1.Get "a" = ("x", true) ∧
    (NewFileStoreEmpty.SaveID "u" "a" "x").1.Get "a" = ("x", true) :=
  ⟨c9_save_get_roundtrip.1 NewMemoryStore "u" "a" "x" rfl,
   c9_save_get_roundtrip.2 NewFileStoreEmpty "u" "a" "x" rfl⟩

/-! ## Claim C1 -/

/-- Helper: the soft-delete row update keeps `short_id`. -/
theorem tombstoneRow_shortID (uid : String) (ids : List String) (r : PgRow) :
    (tombstoneRow uid ids r).shortID = r.shortID := by
  unfold tombstoneRow
  split <;> rfl

/-- Helper: the soft-delete row update keeps `original_url`. -/
theorem tombstoneRow_originalURL (uid : String) (ids : List String) (r : PgRow) :
    (tombstoneRow uid ids r).originalURL = r.originalURL := by
  unfold tombstoneRow
  split <;> rfl

/-- Helper: forward lookup commutes with the soft-delete row update. -/
theorem pgLookup_map_tombstone (uid : String) (ids : List String) (id : String)
    (t : PgTable) :
    pgLookup id (t.map (tombstoneRow uid ids)) =
      (pgLookup id t).map (tombstoneRow uid ids) := by
  induction t with
  | nil => rfl
  | cons r rest ih =>
      simp only [List.map_cons, pgLookup, tombstoneRow_shortID]
      by_cases hid : r.shortID = id
      · simp [hid]
      · simp [hid, ih]

/-- Helper: the `UPDATE ... SET is_deleted = TRUE` of `BatchDelete` never
changes `short_id` or `original_url`, so a forward `Get` reads the same
answer before and after. -/
theorem pgGet_map_tombstone (uid : String) (ids : List String) (t : PgTable)
    (id : String) :
    pgGet (t.map (tombstoneRow uid ids)) id = pgGet t id := by
  unfold pgGet
  rw [pgLookup_map_tombstone]
  cases h : pgLookup id t with
  | none => rfl
  | some r => simp [tombstoneRow_originalURL]

/-- Claim C1 counterexample: save `("u","a","x")` into the empty memory
store, then `BatchDelete("u", ["a"])` succeeds (nil error), yet
`Get("a")` still returns `("x", true)` — not `found = false` as claimed.
Likewise the relational `Get` resolves an already tombstoned row. -/
theorem c1_counterexample :
    (((NewMemoryStore.SaveID "u" "a" "x").1.BatchDelete "u" ["a"]).2 = none) ∧
    (((NewMemoryStore.SaveID "u" "a" "x").1.BatchDelete "u" ["a"]).1.Get "a"
        = ("x", true)) ∧
    ¬ ((((NewMemoryStore.SaveID "u" "a" "x").1.BatchDelete "u" ["a"]).1.Get "a").2
        = false) ∧
    (pgGet [⟨"a", "x", "u", true⟩] "a" = ("x", true)) := by
  refine ⟨rfl, by decide, by decide, by decide⟩

/-- Claim C1 (amended): `Get` returns `found = false` exactly when the id
is absent from the forward map (memory) or from the table (relational);
tombstones are never consulted. `BatchDelete` does not affect `Get` in
either backend: the memory version is a no-op and the relational version
only flips `is_deleted`, which `Get` ignores. -/
theorem c1_get_ignores_tombstones :
    (∀ (s : MemoryStore) (uid : String) (ids : List String) (id : String),
        (s.BatchDelete uid ids).1.Get id = s.Get id ∧
        (s.BatchDelete uid ids).2 = none) ∧
    (∀ (t : PgTable) (uid : String) (ids : List String) (id : String),
        pgGet (pgBatchDelete t uid ids).1 id = pgGet t id) ∧
    (∀ (s : MemoryStore) (id : String),
        (s.Get id).2 = (AList.find? id s.URLs).isSome) ∧
    (∀ (t : PgTable) (id : String),
        (pgGet t id).2 = (pgLookup id t).isSome) := by
  refine ⟨fun s uid ids id => ⟨rfl, rfl⟩, ?_, fun s id => rfl, fun t id => rfl⟩
  intro t uid ids id
  unfold pgBatchDelete
  by_cases hids : ids = []
  · simp [hids]
  · simp only [hids, if_neg, not_false_iff]
    exact pgGet_map_tombstone uid ids t id

/-! ## Claim C2 -/

/-- Claim C2 counterexample: resubmitting the identical pair
`("a", "x")` to the memory backend fails with the AlreadyExists error
even though the id is bound to the same URL — the claim requires this
resubmission not to fail. -/
theorem c2_counterexample :
    ¬ ((((NewMemoryStore.SaveID "u" "a" "x").1.SaveID "u" "a" "x").2) = none) := by
  decide

/-- Claim C2 (amended): the memory (and file) backend's `SaveID` fails
with AlreadyExists whenever the id is already present, regardless of the
URL it is bound to — identical resubmission included; only the
relational backend is idempotent: its insert-ignore-conflict `SaveID`
always returns a nil error and a resubmitted pair leaves the table
unchanged. -/
theorem c2_saveID_retry_semantics :
    (∀ (s : MemoryStore) (uid id url : String),
        (s.SaveID uid id url).2 = none →
        (((s.SaveID uid id url).1.SaveID uid id url).2).isSome) ∧
    (∀ (t : PgTable) (uid id url : String), (pgSaveID t uid id url).2 = none) ∧
    (∀ (t : PgTable) (uid id url : String),
        pgSaveID (pgSaveID t uid id url).1 uid id url =
          ((pgSaveID t uid id url).1, none)) := by
  refine ⟨?_, ?_, ?_⟩
  · intro s uid id url h
    unfold MemoryStore.SaveID at h ⊢
    by_cases hf : (AList.find? id s.URLs).isSome
    · simp [hf] at h
    · simp [hf, AList.find?_insert_self]
  · intro t uid id url
    unfold pgSaveID
    split <;> rfl
  · intro t uid id url
    unfold pgSaveID
    by_cases hc : (pgLookup id t).isSome ∨ (pgLookupByURL url t).isSome
    · simp [hc]
    · have h1 : pgLookup id t = none := by
        rcases Option.eq_none_or_eq_some (pgLookup id t) with h | ⟨r, h⟩
        · exact h
        · exact absurd (Or.inl (by simp [h])) hc
      have h2 : pgLookup id (t ++ [⟨id, url, uid, false⟩])
          = some ⟨id, url, uid, false⟩ := by
        rw [pgLookup_append_of_none id t _ h1]
        simp [pgLookup]
      simp [hc, h2]

/-- Witness for the amended C2 at a concrete input: the duplicate memory
resubmission of `("a","x")` is observed to fail. -/
theorem c2_saveID_retry_semantics_witness :
    (((NewMemoryStore.SaveID "u" "a" "x").1.SaveID "u" "a" "x").2).isSome :=
  c2_saveID_retry_semantics.1 NewMemoryStore "u" "a" "x" rfl

/-! ## Claim C5 -/

/-- Reverse-to-forward consistency: every reverse binding
`originalURL ↦ shortID` is backed by the matching forward binding. -/
def RevConsistent (s : MemoryStore) : Prop :=
  ∀ url id, AList.find? url s.reverseURLs = some id →
    AList.find? id s.URLs = some url

/-- Store states reachable from a fresh store through the public mutation
interface of the memory backend. -/
inductive Reachable : MemoryStore → Prop where
  | init : Reachable NewMemoryStore
  | saveID (s : MemoryStore) (uid id url : String) :
      Reachable s → Reachable (s.SaveID uid id url).1
  | saveBatch (s : MemoryStore) (uid : String) (pairs : List (String × String)) :
      Reachable s → Reachable (s.SaveBatch uid pairs).1
  | batchDelete (s : MemoryStore) (uid : String) (ids : List String) :
      Reachable s → Reachable (s.BatchDelete uid ids).1

/-- Helper: inserting a fresh forward binding together with its reverse
binding preserves reverse-to-forward consistency. -/
theorem revConsistent_step (s : MemoryStore) (uid id url : String)
    (h : RevConsistent s) (hid : AList.find? id s.URLs = none) :
    RevConsistent ⟨AList.insert id url s.URLs,
      AList.insert url id s.reverseURLs, ownerUpdate uid id url s.userURLs⟩ := by
  intro url' id' hfind
  simp only at hfind ⊢
  by_cases hu : url' = url
  · rw [hu, AList.find?_insert_self] at hfind
    injection hfind with hik
    subst hik
    rw [hu]
    exact AList.find?_insert_self id url s.URLs
  · rw [AList.find?_insert_ne url url' id s.reverseURLs hu] at hfind
    have hfwd := h url' id' hfind
    have hne : id' ≠ id := by
      intro he
      subst he
      rw [hid] at hfwd
      cases hfwd
    rw [AList.find?_insert_ne id id' url s.URLs hne]
    exact hfwd

/-- Helper: `SaveID` preserves reverse-to-forward consistency. -/
theorem saveID_revConsistent (s : MemoryStore) (uid id url : String)
    (h : RevConsistent s) : RevConsistent (s.SaveID uid id url).1 := by
  unfold MemoryStore.SaveID
  by_cases hf : (AList.find? id s.URLs).isSome
  · simpa [hf] using h
  · have hnone : AList.find? id s.URLs = none :=
      Option.not_isSome_iff_eq_none.mp (by simpa using hf)
    simpa [hf] using revConsistent_step s uid id url h hnone

/-- Helper: the `SaveBatch` loop preserves reverse-to-forward consistency
through each iteration (aborting iterations change nothing). -/
theorem saveBatchGo_revConsistent (uid : String) (pairs : List (String × String)) :
    ∀ s : MemoryStore, RevConsistent s → RevConsistent (saveBatchGo uid s pairs).1 := by
  induction pairs with
  | nil => intro s h; exact h
  | cons p rest ih =>
      intro s h
      obtain ⟨id, url⟩ := p
      unfold saveBatchGo
      by_cases h1 : (AList.find? id s.URLs).isSome
      · simpa [h1] using h
      · by_cases h2 : (AList.find? id ((ownerFind? uid s.userURLs).getD [])).isSome
        · simpa [h1, h2] using h
        · have hnone : AList.find? id s.URLs = none :=
            Option.not_isSome_iff_eq_none.mp (by simpa using h1)
          simpa [h1, h2] using
            ih _ (revConsistent_step s uid id url h hnone)

/-- Claim C5 counterexample: from the empty store, `SaveID("u","a","x")`
then `SaveID("u","b","x")` both succeed (the forward check only looks at
the id), after which the forward map holds `a ↦ x` while the reverse map
holds `x ↦ b`: forward maps `a` to `x` but reverse does not map `x` to
`a`, so the claimed two-way consistency fails on a reachable state. -/
theorem c5_counterexample :
    (AList.find? "a" (((NewMemoryStore.SaveID "u" "a" "x").1.SaveID "u" "b" "x").1).URLs
        = some "x") ∧
    (((NewMemoryStore.SaveID "u" "a" "x").1.SaveID "u" "b" "x").2 = none) ∧
    ¬ (AList.find? "x"
          (((NewMemoryStore.SaveID "u" "a" "x").1.SaveID "u" "b" "x").1).reverseURLs
        = some "a") := by
  refine ⟨by decide, by decide, by decide⟩

/-- Claim C5 (amended): every mutation of the memory backend updates the
forward and reverse maps together, and on every reachable store the
reverse map is consistent with the forward map in one direction: each
reverse binding `url ↦ id` is backed by the forward binding `id ↦ url`.
The converse fails when one URL is saved under two ids (see the
counterexample), because the reverse map keeps only the latest id. -/
theorem c5_reverse_to_forward_consistency :
    ∀ s : MemoryStore, Reachable s → RevConsistent s := by
  intro s h
  induction h with
  | init => intro url id hfind; cases hfind
  | saveID s uid id url _ ih => exact saveID_revConsistent s uid id url ih
  | saveBatch s uid pairs _ ih =>
      unfold MemoryStore.SaveBatch
      exact saveBatchGo_revConsistent uid pairs _ ih
  | batchDelete s uid ids _ ih => exact ih

/-- Witness for the amended C5: the one-save store is reachable and
reverse-to-forward consistent. -/
theorem c5_reverse_to_forward_consistency_witness :
    RevConsistent (NewMemoryStore.SaveID "u" "a" "x").1 :=
  c5_reverse_to_forward_consistency _
    (Reachable.saveID NewMemoryStore "u" "a" "x" Reachable.init)

/-! ## Claim C6 -/

/-- Helper: the memory `SaveID` leaves the store unchanged when it
reports an error. -/
theorem memorySaveID_err_frame (s : MemoryStore) (uid id url : String)
    (h : (s.SaveID uid id url).2 ≠ none) : (s.SaveID uid id url).1 = s := by
  unfold MemoryStore.SaveID at h ⊢
  by_cases hf : (AList.find? id s.URLs).isSome
  · simp [hf]
  · simp [hf] at h

/-- Helper: an error-free replay of a log prefix continues on the suffix
from the rebuilt state. -/
theorem loadEntries_append_of_none (xs ys : List FileEntry) :
    ∀ m m' : MemoryStore, loadEntries m xs = (m', none) →
      loadEntries m (xs ++ ys) = loadEntries m' ys := by
  induction xs with
  | nil =>
      intro m m' h
      unfold loadEntries at h
      injection h with h1 h2
      subst h1
      rfl
  | cons e rest ih =>
      intro m m' h
      rw [List.cons_append]
      unfold loadEntries at h
      cases hm : m.SaveID e.userID e.shortID e.originalURL with
      | mk m2 err =>
          cases err with
          | none =>
              rw [hm] at h
              have hgoal : loadEntries m (e :: (rest ++ ys))
                  = loadEntries m2 (rest ++ ys) := by
                simp only [loadEntries]
                rw [hm]
              rw [hgoal]
              exact ih m2 m' h
          | some e2 =>
              rw [hm] at h
              simp at h

/-- Helper: the replay invariant of the file backend — if a file store's
memory state is exactly what replaying its log from scratch produces,
the invariant survives any further sequence of `SaveID` requests. -/
theorem applyOps_replay (ops : List FileEntry) :
    ∀ fs : FileStore,
      loadEntries NewMemoryStore fs.file = (fs.memoryStore, none) →
      loadEntries NewMemoryStore (applyOps fs ops).file =
        ((applyOps fs ops).memoryStore, none) := by
  induction ops with
  | nil => intro fs h; exact h
  | cons op rest ih =>
      intro fs h
      unfold applyOps
      apply ih
      unfold FileStore.SaveID
      cases hm : fs.memoryStore.SaveID op.userID op.shortID op.originalURL with
      | mk m err =>
          cases err with
          | some e =>
              have hne : (fs.memoryStore.SaveID op.userID op.shortID op.originalURL).2 ≠ none := by
                rw [hm]
                simp
              have hframe :=
                memorySaveID_err_frame fs.memoryStore op.userID op.shortID op.originalURL hne
              rw [hm] at hframe
              simp only at hframe
              simp only [hframe]
              exact h
          | none =>
              simp only
              rw [loadEntries_append_of_none fs.file _ NewMemoryStore fs.memoryStore h]
              unfold loadEntries
              rw [hm]
              rfl

/-- Claim C6 counterexample: replaying a log in which the ShortID `"a"`
occurs twice (first bound to `"x"`, then to `"y"`) rebuilds `a ↦ x` —
the FIRST write in file order wins, because the replay goes through
`SaveID`, which rejects an existing id — and the replay reports an
error instead of applying the later record. The claim says the final
state would be the last write (`a ↦ y`). -/
theorem c6_counterexample :
    ((loadEntries NewMemoryStore [⟨"u", "a", "x"⟩, ⟨"u", "a", "y"⟩]).1.Get "a"
        = ("x", true)) ∧
    ((loadEntries NewMemoryStore [⟨"u", "a", "x"⟩, ⟨"u", "a", "y"⟩]).2).isSome ∧
    ¬ ((loadEntries NewMemoryStore [⟨"u", "a", "x"⟩, ⟨"u", "a", "y"⟩]).1.Get "a"
        = ("y", true)) := by
  refine ⟨by decide, by decide, by decide⟩

/-- Claim C6 (amended): for a log file produced by a run of `SaveID`
operations starting from an empty store (the `appendToFile` path, where
each successfully saved record is appended exactly once, so no ShortID
repeats), replaying the file sequentially from scratch reproduces the
exact pre-restart memory state — forward map, reverse map and owner index
— with no replay error. For a file in which some ShortID does repeat,
the first record wins and replay aborts with an error (see the
counterexample). -/
theorem c6_replay_reproduces_state :
    ∀ ops : List FileEntry,
      loadEntries NewMemoryStore (applyOps NewFileStoreEmpty ops).file =
        ((applyOps NewFileStoreEmpty ops).memoryStore, none) :=
  fun ops => applyOps_replay ops NewFileStoreEmpty rfl

/-! ## Claim C7 -/

/-- Claim C7: for a well-formed delete submission (decodable non-empty id
list, authorized user), the producer enqueues the request exactly when
the bounded queue has free space, and otherwise rejects it immediately
with Service Unavailable, leaving the queue untouched — the
`select`/`default` in the handler never blocks the caller. -/
theorem c7_delete_producer_nonblocking :
    ∀ (ch : DeleteChan) (uid : String) (ids : List String),
      ids ≠ [] → uid ≠ "" →
      (ch.cap ≤ ch.buf.length →
        DeleteUserURLsHandler ch (some uid) (some ids) = (ch, .serverBusy)) ∧
      (ch.buf.length < ch.cap →
        DeleteUserURLsHandler ch (some uid) (some ids) =
          ({ ch with buf := ch.buf ++ [⟨uid, ids⟩] }, .accepted)) := by
  intro ch uid ids hids huid
  unfold DeleteUserURLsHandler
  constructor
  · intro hfull
    have hlt : ¬ ch.buf.length < ch.cap := by omega
    simp [hids, huid, hlt]
  · intro hspace
    simp [hids, huid, hspace]

/-- Witness for C7 at concrete inputs: a full one-slot queue rejects with
Service Unavailable and stays unchanged; a queue with space accepts and
appends the request. -/
theorem c7_delete_producer_nonblocking_witness :
    (DeleteUserURLsHandler ⟨1, [⟨"v", ["b"]⟩]⟩ (some "u") (some ["a"]) =
      (⟨1, [⟨"v", ["b"]⟩]⟩, .serverBusy)) ∧
    (DeleteUserURLsHandler ⟨2, [⟨"v", ["b"]⟩]⟩ (some "u") (some ["a"]) =
      (⟨2, [⟨"v", ["b"]⟩, ⟨"u", ["a"]⟩]⟩, .accepted)) := by
  constructor
  · exact (c7_delete_producer_nonblocking ⟨1, [⟨"v", ["b"]⟩]⟩ "u" ["a"]
      (by decide) (by decide)).1 (by decide)
  · exact (c7_delete_producer_nonblocking ⟨2, [⟨"v", ["b"]⟩]⟩ "u" ["a"]
      (by decide) (by decide)).2 (by decide)

/-! ## Claim C8 -/

/-- Helper: every row of the owner appears in the user-listing row scan,
whatever its tombstone flag. -/
theorem mem_pgUserRows (uid : String) (t : PgTable) (r : PgRow)
    (hmem : r ∈ t) (huid : r.userID = uid) :
    (r.shortID, r.originalURL) ∈ pgUserRows uid t := by
  induction t with
  | nil => cases hmem
  | cons hd rest ih =>
      rcases List.mem_cons.mp hmem with h | h
      · subst h
        simp [pgUserRows, huid]
      · by_cases hu : hd.userID = uid
        · simp only [pgUserRows, hu, if_pos]
          exact List.mem_cons_of_mem _ (ih h)
        · simp only [pgUserRows, hu, if_neg, not_false_iff]
          exact ih h

/-- Helper: everything the user-listing row scan returns comes from a row
of the owner. -/
theorem pgUserRows_sound (uid : String) (t : PgTable) :
    ∀ p : String × String, p ∈ pgUserRows uid t →
      ∃ r : PgRow, r ∈ t ∧ r.userID = uid ∧ p = (r.shortID, r.originalURL) := by
  induction t with
  | nil => intro p hmem; cases hmem
  | cons hd rest ih =>
      intro p hmem
      by_cases hu : hd.userID = uid
      · simp only [pgUserRows, hu, if_pos] at hmem
        rcases List.mem_cons.mp hmem with h | h
        · exact ⟨hd, List.mem_cons_self hd rest, hu, h⟩
        · obtain ⟨r, h1, h2, h3⟩ := ih p h
          exact ⟨r, List.mem_cons_of_mem _ h1, h2, h3⟩
      · simp only [pgUserRows, hu, if_neg, not_false_iff] at hmem
        obtain ⟨r, h1, h2, h3⟩ := ih p hmem
        exact ⟨r, List.mem_cons_of_mem _ h1, h2, h3⟩

/-- Claim C8 counterexample: a table holding one row of owner `"u"` that
is already tombstoned (`is_deleted = true`) — `GetUserURLs("u")` still
returns that record, while the claim says no deleted record may appear. -/
theorem c8_counterexample :
    ((pgGetUserURLs [⟨"a", "x", "u", true⟩] "u").1 = [("a", "x")]) ∧
    ((⟨"a", "x", "u", true⟩ : PgRow).isDeleted = true) := by
  refine ⟨by decide, rfl⟩

/-- Claim C8 (amended): the relational `GetUserURLs(owner)` returns
exactly the records of that owner — regardless of the tombstone flag,
since the query has no `is_deleted` filter: every row of the owner
(deleted or not) appears, and everything returned comes from a row of
the owner. -/
theorem c8_user_listing_ignores_tombstones :
    (∀ (t : PgTable) (uid : String) (r : PgRow), r ∈ t → r.userID = uid →
        (r.shortID, r.originalURL) ∈ (pgGetUserURLs t uid).1) ∧
    (∀ (t : PgTable) (uid : String) (p : String × String),
        p ∈ (pgGetUserURLs t uid).1 →
        ∃ r : PgRow, r ∈ t ∧ r.userID = uid ∧ p = (r.shortID, r.originalURL)) :=
  ⟨fun t uid r hmem huid => mem_pgUserRows uid t r hmem huid,
   fun t uid p hmem => pgUserRows_sound uid t p hmem⟩

/-- Witness for the amended C8: the tombstoned row of the counterexample
table is listed for its owner. -/
theorem c8_user_listing_ignores_tombstones_witness :
    ("a", "x") ∈ (pgGetUserURLs [⟨"a", "x", "u", true⟩] "u").1 :=
  c8_user_listing_ignores_tombstones.1 [⟨"a", "x", "u", true⟩] "u"
    ⟨"a", "x", "u", true⟩ (List.mem_singleton.mpr rfl) rfl

/-! ## Claim C3 -/

/-- Test backend for the generic orchestrator: the reverse lookup always
misses and every `SaveID` call fails with a persistence-class error that
is NOT an id collision; the state counts the `SaveID` calls made. -/
def failingOps : StoreOps Nat where
  GetIDByURL _ _ := ("", false)
  SaveID n _ _ _ := (n + 1, some "disk full")

/-- Helper: when every save attempt fails, the creation loop never sets
the id, whatever the fuel, attempt index and starting state. -/
theorem createLoopGo_all_fail {σ : Type} (ops : StoreOps σ) (uid url : String)
    (gens : Nat → Option String)
    (hfail : ∀ (t : σ) (g : String), ((ops.SaveID t uid g url).2).isSome) :
    ∀ (fuel i : Nat) (s : σ), (createLoopGo ops uid url gens s i fuel).2 = "" := by
  intro fuel
  induction fuel with
  | zero => intro i s; rfl
  | succ n ih =>
      intro i s
      unfold createLoopGo
      cases hg : gens i with
      | none => exact ih (i + 1) s
      | some gid =>
          have hs := hfail s gid
          have hne : ¬ (ops.SaveID s uid gid url).2 = none := by
            intro hnone
            rw [hnone] at hs
            simp at hs
          simp only [hne, if_neg, not_false_iff]
          exact ih (i + 1) _

/-- Claim C3 counterexample: with a backend whose `SaveID` always fails
with a non-AlreadyExists persistence error (`failingOps`, whose state
counts save calls), the orchestrator makes all 10 save attempts — the
final counter is 10, not 1 — and then reports the generic exhaustion
error; the claim says a non-AlreadyExists error aborts immediately. -/
theorem c3_counterexample :
    (getOrCreateShortURL failingOps "b" 0 "u" "x" (fun _ => some "c")
        = (10, none, false)) ∧
    ¬ ((getOrCreateShortURL failingOps "b" 0 "u" "x" (fun _ => some "c")).1 = 1) := by
  refine ⟨rfl, by decide⟩

/-- Claim C3 (amended): the orchestrator loops up to a fixed budget of 10
attempts; on a successful save it stops and returns that id; on a
generator error it retries; on ANY `SaveID` error — id collision or not,
since the code only tests `err == nil` — it also retries; when the
budget is exhausted without a success it fails with the exhaustion error
(`result = none`, not flagged as already-existing). -/
theorem c3_retry_exhaustion {σ : Type} (ops : StoreOps σ) (base : String)
    (s : σ) (uid url : String) (gens : Nat → Option String)
    (hmiss : (ops.GetIDByURL s url).2 = false)
    (hfail : ∀ (t : σ) (g : String), ((ops.SaveID t uid g url).2).isSome) :
    (getOrCreateShortURL ops base s uid url gens).2.1 = none ∧
    (getOrCreateShortURL ops base s uid url gens).2.2 = false := by
  unfold getOrCreateShortURL
  have hempty := createLoopGo_all_fail ops uid url gens hfail 10 0 s
  simp [hmiss, hempty]

/-- Witness for the amended C3 at a concrete input: starting `failingOps`
at counter 5, the orchestrator reports exhaustion. -/
theorem c3_retry_exhaustion_witness :
    ((getOrCreateShortURL failingOps "b" 5 "u" "x" (fun _ => some "c")).2.1 = none) ∧
    ((getOrCreateShortURL failingOps "b" 5 "u" "x" (fun _ => some "c")).2.2 = false) :=
  c3_retry_exhaustion failingOps "b" 5 "u" "x" (fun _ => some "c") rfl
    (fun _ _ => rfl)

/-! ## Claim C4 -/

/-- Claim C4 (failing input): table `urls = [(abc, x, u1, not-deleted)]`;
owner `u2` submits URL `y`, and the generator produces the already-taken
candidate `abc`. The relational `SaveID` hits the `short_id` conflict,
inserts nothing and returns nil, so the orchestrator returns `b/abc` as
NEWLY CREATED (`already-existed = false`) while the table is unchanged
and `abc` is still bound to `x ≠ y`: the orchestrator never checks that
its write actually persisted, contradicting the claim (and the spec's
requirement). -/
theorem c4_orchestrator_trusts_silent_conflict :
    (getOrCreateShortURL pgOps "b" [⟨"abc", "x", "u1", false⟩] "u2" "y"
        (fun _ => some "abc") =
      ([⟨"abc", "x", "u1", false⟩], some "b/abc", false)) ∧
    (pgGet [⟨"abc", "x", "u1", false⟩] "abc" = ("x", true)) ∧
    ("x" ≠ "y") := by
  refine ⟨by decide, by decide, by decide⟩

end Contractor
